import Mathlib

/-!
# Shallow embedding of `src/main.py` (minimal HTTP JSON API)

The repository is a single-file Python HTTP server exposing a small CRUD
API over an in-memory list of items, plus `/health` and `/metrics`.
This file embeds the routing/dispatch layer and the five handlers
(`index`, `list_items`, `search`, `add`, `delete`) as executable Lean
functions and proves the specification claims about them.

Modelling conventions:
* Python JSON values appearing in request arguments are `ArgVal`
  (null, bool, arbitrary-precision int, string, array).  JSON object
  values nested inside arguments are not modelled; no endpoint ever
  inspects one, and Python `==` between an object and an `int` id is
  `False` just as for the other non-numeric constructors.
* An args mapping (`json.loads` result for POST, normalized query
  mapping for GET) is an association list `Args`; `args.get(k)`
  followed by the source's `is None` test is `getPy` (a JSON `null`
  value behaves exactly like an absent key under `.get` + `is None`).
* Handler exceptions are `Except.error msg` where `msg` is `str(e)`;
  the dispatcher (`call_api`) turns them into a 500 response.
* External collaborators are abstracted exactly as the spec scopes
  them: the TCP/HTTP transport hands `do_GET`/`do_POST` an already
  parsed path, query list (`parse_qs` output) and, for POST, the
  outcome of reading and JSON-decoding the body; `socket.gethostname`
  is a parameter `hostname`; `psutil`/prometheus gauges are not
  modelled (no claim touches their values), while the request counter
  is part of the server state.
-/

/-- A JSON value that can occur in a request-args mapping. -/
inductive ArgVal where
  | null : ArgVal
  | bool (b : Bool) : ArgVal
  | num (n : Int) : ArgVal
  | str (s : String) : ArgVal
  | arr (xs : List ArgVal) : ArgVal
deriving Repr

/-- An item of the data store: Python dict
`{"id": int, "name": ..., "description": ...}`.  `add` stores the
`name`/`description` argument values unchecked, so those fields are
arbitrary JSON values; the default data uses strings. -/
structure Item where
  id : Int
  name : ArgVal
  description : ArgVal
deriving Repr

/-- The normalized request-arguments mapping (a Python dict). -/
def Args := List (String × ArgVal)

/-- Python `args.get(k)` combined with the handlers' `is None` check:
yields `none` when the key is absent or its value is JSON `null`
(Python `None`), otherwise the first value bound to `k`. -/
def getPy (args : Args) (k : String) : Option ArgVal :=
  match args with
  | [] => none
  | (k', v) :: rest =>
      if k' = k then
        match v with
        | .null => none
        | v => some v
      else getPy rest k

/-- Python `==` between a stored integer id and a request JSON value:
numeric comparison against ints and bools (Python `True == 1`),
`False` against every other type. -/
def pyEqIdInt (n : Int) (v : ArgVal) : Bool :=
  match v with
  | .num m => n == m
  | .bool b => n == (if b then (1 : Int) else 0)
  | _ => false

/-- Python `==` on JSON argument values (bools compare numerically with
ints, arrays compare elementwise). -/
def pyEqV : ArgVal → ArgVal → Bool
  | .null, .null => true
  | .bool a, .bool b => a == b
  | .bool a, .num m => (if a then (1 : Int) else 0) == m
  | .num n, .bool b => n == (if b then (1 : Int) else 0)
  | .num n, .num m => n == m
  | .str a, .str b => a == b
  | .arr as, .arr bs => pyEqVL as bs
  | _, _ => false
where
  /-- Python `==` on JSON arrays: same length, elementwise equal. -/
  pyEqVL : List ArgVal → List ArgVal → Bool
  | [], [] => true
  | a :: as, b :: bs => pyEqV a b && pyEqVL as bs
  | _, _ => false

/-- Python `==` on two stored item dicts (same keys `id`, `name`,
`description`; values compared with Python `==`). -/
def itemEq (a b : Item) : Bool :=
  a.id == b.id && pyEqV a.name b.name && pyEqV a.description b.description

mutual

/-- Python `repr()` of a JSON value (used inside array rendering by
`str()`; escape sequences inside exotic strings are not modelled). -/
def pyReprV : ArgVal → String
  | .null => "None"
  | .bool b => if b then "True" else "False"
  | .num n => toString n
  | .str s => "'" ++ s ++ "'"
  | .arr xs => "[" ++ pyReprList xs ++ "]"

/-- Comma-joined `repr`s of array elements. -/
def pyReprList : List ArgVal → String
  | [] => ""
  | [x] => pyReprV x
  | x :: y :: rest => pyReprV x ++ ", " ++ pyReprList (y :: rest)

end

/-- Python `str()` of a JSON argument value, as interpolated by the
f-string in `delete`. -/
def pyStrV : ArgVal → String
  | .null => "None"
  | .bool b => if b then "True" else "False"
  | .num n => toString n
  | .str s => s
  | .arr xs => "[" ++ pyReprList xs ++ "]"

/-- Does the list of characters `hay` start with `needle`? -/
def startsWithL : List Char → List Char → Bool
  | [], _ => true
  | _ :: _, [] => false
  | a :: as, b :: bs => a == b && startsWithL as bs

/-- Does `hay` contain `needle` as a contiguous run? -/
def containsSubL (needle : List Char) : List Char → Bool
  | [] => startsWithL needle []
  | c :: rest => startsWithL needle (c :: rest) || containsSubL needle rest

/-- Python `q in s` for strings: case-sensitive substring test over
code points. -/
def strContainsSub (s q : String) : Bool :=
  containsSubL q.data s.data

/-- Python `q in container` as evaluated by `search`'s comprehension:
substring test when the stored name is a string (raising `TypeError`
when `q` is not a string), membership when it is an array, and
`TypeError` for non-iterable names. -/
def pyIn (q : ArgVal) (container : ArgVal) : Except String Bool :=
  match container with
  | .str s =>
      match q with
      | .str qs => .ok (strContainsSub s qs)
      | _ => .error "'in <string>' requires string as left operand"
  | .arr xs => .ok (xs.any (fun x => pyEqV q x))
  | _ => .error "argument is not iterable"

/-- A JSON value produced by a handler (serialized by `json.dumps`);
objects keep the source's key order. -/
inductive Out where
  | onum (n : Int) : Out
  | ostr (s : String) : Out
  | oval (v : ArgVal) : Out
  | olist (xs : List Out) : Out
  | oobj (fields : List (String × Out)) : Out
deriving Repr

/-- The JSON rendering of a stored item (the dict itself). -/
def itemToOut (it : Item) : Out :=
  .oobj [("id", .onum it.id), ("name", .oval it.name),
         ("description", .oval it.description)]

/-- A handler: normalized args and current store to either a thrown
exception message or a result value and the store after the call. -/
def Handler := Args → List Item → Except String (Out × List Item)

/-- `index` (`GET /`): static metadata plus the current hostname. -/
def index (hostname : String) : Handler := fun _ items =>
  .ok (.oobj [("name", .ostr "Python REST API Example"),
              ("summary", .ostr "Simple REST API with pure Python"),
              ("version", .ostr "1.0.0"),
              ("hostname", .ostr hostname)], items)

/-- `list_items` (`GET /list`): count and full store contents. -/
def list_items : Handler := fun _ items =>
  .ok (.oobj [("count", .onum items.length),
              ("items", .olist (items.map itemToOut))], items)

/-- The filtering comprehension in `search`: tests `q in item["name"]`
item by item in store order, propagating the first `TypeError`. -/
def searchFilter (q : ArgVal) : List Item → Except String (List Item)
  | [] => .ok []
  | it :: rest => do
      let b ← pyIn q it.name
      let tail ← searchFilter q rest
      .ok (if b then it :: tail else tail)

/-- `search` (`GET /search`): requires `q`, then filters by name; a
`TypeError` inside the comprehension propagates out. -/
def search : Handler := fun args items =>
  match getPy args "q" with
  | none => .ok (.oobj [("error", .ostr "q parameter required")], items)
  | some q =>
      match searchFilter q items with
      | .error e => .error e
      | .ok results =>
          .ok (.oobj [("count", .onum results.length),
                      ("items", .olist (results.map itemToOut))], items)

/-- `add` (`POST /add`): reads the last item's id first (raising
`IndexError` on an empty store), then checks `name`/`description`
presence, then appends the new item and returns it. -/
def add : Handler := fun args items => do
  let last_id ←
    match items.getLast? with
    | none => Except.error "list index out of range"
    | some it => Except.ok it.id
  match getPy args "name", getPy args "description" with
  | some name, some description =>
      let item : Item := ⟨last_id + 1, name, description⟩
      .ok (itemToOut item, items ++ [item])
  | _, _ =>
      .ok (.oobj [("error", .ostr "name and description are required")],
           items)

/-- The `for`-loop scan in `delete`: first item whose id compares
Python-equal to the requested JSON value. -/
def findFirstMatch (v : ArgVal) : List Item → Option Item
  | [] => none
  | it :: rest => if pyEqIdInt it.id v then some it else findFirstMatch v rest

/-- Python `list.remove(x)`: drop the first element `==` to `x`. -/
def removeFirstEq (x : Item) : List Item → List Item
  | [] => []
  | y :: ys => if itemEq y x then ys else y :: removeFirstEq x ys

/-- `delete` (`POST /delete`): requires `id`, scans for the first item
with a Python-equal id, removes it via `list.remove`. -/
def delete : Handler := fun args items =>
  match getPy args "id" with
  | none => .ok (.oobj [("error", .ostr "id parameter required")], items)
  | some v =>
      match findFirstMatch v items with
      | some it => .ok (.oobj [("deleted", .oval v)], removeFirstEq it items)
      | none =>
          .ok (.oobj [("error",
                 .ostr ("item not found with id " ++ pyStrV v))], items)

/-- HTTP method of a routed request (`api.routing` has these two keys). -/
inductive Method where
  | GET : Method
  | POST : Method
deriving DecidableEq, Repr

/-- The route table built by the `@api.get`/`@api.post` registrations. -/
def routeLookup (hostname : String) (m : Method) (p : String) :
    Option Handler :=
  match m with
  | .GET =>
      if p = "/" then some (index hostname)
      else if p = "/list" then some list_items
      else if p = "/search" then some search
      else none
  | .POST =>
      if p = "/add" then some add
      else if p = "/delete" then some delete
      else none

/-- Mutable process state visible to the embedded code: the item store
(`example_data["items"]`) and the Prometheus request counter. -/
structure ServerState where
  items : List Item
  requestCount : Nat
deriving Repr

/-- An HTTP response body as written by the handler code. -/
inductive Body where
  | json (v : Out) : Body
  | text (s : String) : Body
  | metrics : Body
deriving Repr

/-- Status line and body of a response. -/
structure HttpResponse where
  status : Nat
  body : Body
deriving Repr

/-- `ApiRequestHandler.call_api`: increment the request counter, look
up the route, run the handler (200 on return, 500 on exception), or
404 when the route is absent. -/
def call_api (hostname : String) (m : Method) (p : String) (args : Args)
    (st : ServerState) : HttpResponse × ServerState :=
  let count' := st.requestCount + 1
  match routeLookup hostname m p with
  | some h =>
      match h args st.items with
      | .ok (result, items') =>
          (⟨200, .json result⟩, ⟨items', count'⟩)
      | .error e =>
          (⟨500, .json (.oobj [("error", .ostr e)])⟩, ⟨st.items, count'⟩)
  | none =>
      (⟨404, .json (.oobj [("error", .ostr "not found")])⟩,
       ⟨st.items, count'⟩)

/-- The query normalizer in `do_GET`: `parse_qs` output with every
single-element value list collapsed to its scalar. -/
def normalizeArgs (q : List (String × List String)) : Args :=
  q.map (fun kv =>
    match kv with
    | (k, [v]) => (k, ArgVal.str v)
    | (k, vs) => (k, ArgVal.arr (vs.map ArgVal.str)))

/-- `ApiRequestHandler.do_GET`: `/health` and `/metrics` are answered
directly (no counter increment); everything else is dispatched. -/
def do_GET (hostname : String) (path : String)
    (query : List (String × List String)) (st : ServerState) :
    HttpResponse × ServerState :=
  let args := normalizeArgs query
  if path = "/health" then (⟨200, .text "OK"⟩, st)
  else if path = "/metrics" then (⟨200, .metrics⟩, st)
  else call_api hostname .GET path args st

/-- Outcome of `do_POST`: either a written response, or an exception
(body read/JSON decode failure) that escapes to the transport. -/
inductive PostOutcome where
  | responded (r : HttpResponse) (st : ServerState) : PostOutcome
  | uncaught (msg : String) (st : ServerState) : PostOutcome
deriving Repr

/-- `ApiRequestHandler.do_POST`: reject any declared content type other
than exactly `application/json` with a 400 before touching the body;
otherwise dispatch the decoded body (`bodyArgs` is the outcome of
reading and `json.loads`-ing it, which is done only on this branch). -/
def do_POST (hostname : String) (path : String)
    (contentType : Option String) (bodyArgs : Except String Args)
    (st : ServerState) : PostOutcome :=
  if contentType ≠ some "application/json" then
    .responded
      ⟨400, .json (.oobj [("error",
        .ostr "posted data must be in json format")])⟩ st
  else
    match bodyArgs with
    | .error e => .uncaught e st
    | .ok args =>
        let (r, st') := call_api hostname .POST path args st
        .responded r st'

/-- `example_data["items"]`: the default three items. -/
def defaultItems : List Item :=
  [⟨1000, .str "cat", .str "cat is meowing"⟩,
   ⟨1001, .str "dog", .str "dog is barking"⟩,
   ⟨1002, .str "bird", .str "bird is singing"⟩]

/-! ## Basic lemmas about the embedded operations -/

mutual

theorem pyEqV_refl : ∀ v : ArgVal, pyEqV v v = true
  | .null => rfl
  | .bool b => by cases b <;> rfl
  | .num n => by simp [pyEqV]
  | .str s => by simp [pyEqV]
  | .arr xs => by simp only [pyEqV]; exact pyEqVL_refl xs

theorem pyEqVL_refl : ∀ xs : List ArgVal, pyEqV.pyEqVL xs xs = true
  | [] => rfl
  | x :: xs => by
      simp only [pyEqV.pyEqVL, Bool.and_eq_true]
      exact ⟨pyEqV_refl x, pyEqVL_refl xs⟩

end

theorem itemEq_refl (x : Item) : itemEq x x = true := by
  simp [itemEq, pyEqV_refl]

theorem itemEq_id {a b : Item} (h : itemEq a b = true) : a.id = b.id := by
  simp only [itemEq, Bool.and_eq_true, beq_iff_eq] at h
  exact h.1.1

/-- `add` on the empty store raises `IndexError` whatever the args are. -/
theorem add_nil (args : Args) :
    add args [] = Except.error "list index out of range" := rfl

/-- `add` on a non-empty store with a missing (or null) `name` or
`description` returns the 200 error payload and does not change the
store. -/
theorem add_missing (args : Args) (s : List Item) (hs : s ≠ [])
    (h : getPy args "name" = none ∨ getPy args "description" = none) :
    add args s =
      .ok (.oobj [("error", .ostr "name and description are required")], s) := by
  have hl : s.getLast? = some (s.getLast hs) :=
    List.getLast?_eq_getLast_of_ne_nil hs
  unfold add
  rw [hl]
  rcases h with h | h
  · rw [h]
    cases getPy args "description" <;> rfl
  · rw [h]
    cases getPy args "name" <;> rfl

/-- `add` on a non-empty store with both fields present appends the
item with id one above the last item's id and returns it. -/
theorem add_created (args : Args) (s : List Item) (hs : s ≠ [])
    (n d : ArgVal) (hn : getPy args "name" = some n)
    (hd : getPy args "description" = some d) :
    add args s =
      .ok (itemToOut ⟨(s.getLast hs).id + 1, n, d⟩,
           s ++ [⟨(s.getLast hs).id + 1, n, d⟩]) := by
  have hl : s.getLast? = some (s.getLast hs) :=
    List.getLast?_eq_getLast_of_ne_nil hs
  unfold add
  rw [hl, hn, hd]
  rfl

/-- Exhaustive description of a normally returning `add`: either the
error payload with the store untouched, or an append of a fresh item
numbered after the current last item. -/
theorem add_cases {args : Args} {s s' : List Item} {r : Out}
    (h : add args s = Except.ok (r, s')) :
    (r = .oobj [("error", .ostr "name and description are required")] ∧
      s' = s) ∨
    ∃ lastIt it, s.getLast? = some lastIt ∧ it.id = lastIt.id + 1 ∧
      r = itemToOut it ∧ s' = s ++ [it] := by
  rcases hs : s.getLast? with _ | lastIt
  · have hnil : s = [] := List.getLast?_eq_none_iff.mp hs
    subst hnil
    rw [add_nil] at h
    cases h
  · have hsne : s ≠ [] := by
      intro hcon
      subst hcon
      cases hs
    rcases hn : getPy args "name" with _ | n
    · rw [add_missing args s hsne (Or.inl hn)] at h
      cases h
      exact Or.inl ⟨rfl, rfl⟩
    · rcases hd : getPy args "description" with _ | d
      · rw [add_missing args s hsne (Or.inr hd)] at h
        cases h
        exact Or.inl ⟨rfl, rfl⟩
      · rw [add_created args s hsne n d hn hd] at h
        cases h
        have hlast : lastIt = s.getLast hsne := by
          have h2 := List.getLast?_eq_getLast_of_ne_nil (l := s) hsne
          rw [hs] at h2
          exact Option.some_injective _ h2
        subst hlast
        exact Or.inr ⟨s.getLast hsne, ⟨(s.getLast hsne).id + 1, n, d⟩,
          rfl, rfl, rfl, rfl⟩

/-- The scan finds nothing when no id matches. -/
theorem findFirstMatch_eq_none {v : ArgVal} :
    ∀ {s : List Item}, (∀ it ∈ s, pyEqIdInt it.id v = false) →
      findFirstMatch v s = none
  | [], _ => rfl
  | it :: rest, h => by
      have h0 : pyEqIdInt it.id v = false := h it (List.mem_cons_self it rest)
      simp only [findFirstMatch, h0, Bool.false_eq_true, if_false]
      exact findFirstMatch_eq_none fun x hx => h x (List.mem_cons_of_mem it hx)

/-- `list.remove` only drops an element: the result is a sublist. -/
theorem removeFirstEq_sublist (x : Item) :
    ∀ s : List Item, List.Sublist (removeFirstEq x s) s
  | [] => List.Sublist.refl []
  | y :: ys => by
      simp only [removeFirstEq]
      by_cases h : itemEq y x = true
      · rw [if_pos h]
        exact List.Sublist.cons y (List.Sublist.refl ys)
      · rw [if_neg h]
        exact List.Sublist.cons₂ y (removeFirstEq_sublist x ys)

/-- When index `i` holds the first id match, the scan returns the item
at `i` and `list.remove` drops exactly that occurrence: no earlier
element can be dict-equal to it, since dict equality forces id
equality and every earlier id fails the comparison. -/
theorem findFirstMatch_removeFirstEq {v : ArgVal} :
    ∀ {s : List Item} {i : Nat} (hi : i < s.length),
      pyEqIdInt (s.get ⟨i, hi⟩).id v = true →
      (∀ j (hj : j < i), pyEqIdInt (s.get ⟨j, Nat.lt_trans hj hi⟩).id v = false) →
      findFirstMatch v s = some (s.get ⟨i, hi⟩) ∧
      removeFirstEq (s.get ⟨i, hi⟩) s = s.eraseIdx i
  | [], i, hi => by cases hi
  | it :: rest, 0, hi => fun hm _ => by
      simp only [List.get] at hm ⊢
      simp only [findFirstMatch, removeFirstEq, hm, if_pos, itemEq_refl,
        List.eraseIdx, and_self]
  | it :: rest, i + 1, hi => fun hm hb => by
      have hit : pyEqIdInt it.id v = false := hb 0 (Nat.succ_pos i)
      have hi' : i < rest.length := Nat.lt_of_succ_lt_succ hi
      have hm' : pyEqIdInt (rest.get ⟨i, hi'⟩).id v = true := hm
      have hb' : ∀ j (hj : j < i),
          pyEqIdInt (rest.get ⟨j, Nat.lt_trans hj hi'⟩).id v = false :=
        fun j hj => hb (j + 1) (Nat.succ_lt_succ hj)
      obtain ⟨hfind, hrem⟩ := findFirstMatch_removeFirstEq hi' hm' hb'
      constructor
      · simp only [List.get, findFirstMatch, hit, Bool.false_eq_true, if_false]
        exact hfind
      · have hne : itemEq it (rest.get ⟨i, hi'⟩) = false := by
          by_contra hcon
          rw [Bool.not_eq_false] at hcon
          rw [itemEq_id hcon] at hit
          rw [hm'] at hit
          cases hit
        simp only [List.get, removeFirstEq, hne, Bool.false_eq_true, if_false,
          List.eraseIdx]
        rw [hrem]

/-- The comprehension in `search` over a store whose names are all
strings: an ordinary filter by the case-sensitive substring test. -/
theorem searchFilter_str {q : String} :
    ∀ {s : List Item}, (∀ it ∈ s, ∃ nm : String, it.name = ArgVal.str nm) →
      searchFilter (.str q) s =
        .ok (s.filter fun it =>
          match it.name with
          | .str nm => strContainsSub nm q
          | _ => false)
  | [], _ => rfl
  | it :: rest, h => by
      obtain ⟨nm, hnm⟩ := h it (List.mem_cons_self it rest)
      have ih := searchFilter_str (q := q)
        fun x hx => h x (List.mem_cons_of_mem it hx)
      simp only [searchFilter, hnm, pyIn, List.filter, ih]
      cases strContainsSub nm q <;> rfl

/-- Exhaustive description of a `delete` call: it never raises, and
either leaves the store untouched (missing id / no match) or removes
the first dict-equal occurrence of the first id match. -/
theorem delete_cases (args : Args) (s : List Item) :
    delete args s = .ok (.oobj [("error", .ostr "id parameter required")], s) ∨
    (∃ v, delete args s =
      .ok (.oobj [("error", .ostr ("item not found with id " ++ pyStrV v))],
           s)) ∨
    (∃ v it, findFirstMatch v s = some it ∧
      delete args s = .ok (.oobj [("deleted", .oval v)], removeFirstEq it s)) := by
  rcases hid : getPy args "id" with _ | v
  · refine Or.inl ?_
    unfold delete
    simp only [hid]
  · rcases hf : findFirstMatch v s with _ | it
    · refine Or.inr (Or.inl ⟨v, ?_⟩)
      unfold delete
      simp only [hid, hf]
    · refine Or.inr (Or.inr ⟨v, it, hf, ?_⟩)
      unfold delete
      simp only [hid, hf]

/-- Every normal return of `delete` leaves a sublist of the store. -/
theorem delete_sublist {args : Args} {s s' : List Item} {r : Out}
    (h : delete args s = Except.ok (r, s')) : List.Sublist s' s := by
  rcases delete_cases args s with hd | ⟨v, hd⟩ | ⟨v, it, _, hd⟩ <;>
    rw [hd] at h <;> cases h
  · exact List.Sublist.refl s
  · exact List.Sublist.refl s
  · exact removeFirstEq_sublist it s

/-- One `/add` or `/delete` handler call that returns normally,
relating the store before to the store after. -/
inductive StoreStep : List Item → List Item → Prop where
  | add_step {s s' : List Item} (a : Args) (r : Out) :
      add a s = Except.ok (r, s') → StoreStep s s'
  | delete_step {s s' : List Item} (a : Args) (r : Out) :
      delete a s = Except.ok (r, s') → StoreStep s s'

/-- `example_data["items"]`: store states reachable from the default
data by any sequence of `/add` and `/delete` calls (a handler that
raises does not touch the store, so such calls change nothing). -/
def ReachableStore (s : List Item) : Prop :=
  Relation.ReflTransGen StoreStep defaultItems s

/-- In a strictly increasing list, the last element bounds them all. -/
theorem le_getLast_of_sorted :
    ∀ {l : List Int} {x : Int}, l.Pairwise (· < ·) → l.getLast? = some x →
      ∀ y ∈ l, y ≤ x
  | [], _, _, hl => by cases hl
  | [a], x, _, hl => by
      cases hl
      intro y hy
      rcases List.mem_singleton.mp hy with rfl
      exact le_refl y
  | a :: b :: t, x, hp, hl => by
      rw [List.getLast?_cons_cons] at hl
      have hp' : (b :: t).Pairwise (· < ·) := hp.tail
      have ha : ∀ z ∈ b :: t, a < z := fun z hz =>
        List.rel_of_pairwise_cons hp hz
      intro y hy
      rcases List.mem_cons.mp hy with rfl | hy'
      · have hx : x ∈ b :: t := by
          have := List.mem_getLast?_eq_getLast (l := b :: t) hl
          rcases this with ⟨hne, rfl⟩
          exact List.getLast_mem hne
        exact le_of_lt (ha x hx)
      · exact le_getLast_of_sorted hp' hl y hy'

/-- Any store step preserves strictly increasing ids: `add` appends
`last id + 1`, which exceeds every id in the store, and `delete`
leaves a sublist. -/
theorem storeStep_pairwise {s s' : List Item}
    (hp : (s.map Item.id).Pairwise (· < ·)) (h : StoreStep s s') :
    (s'.map Item.id).Pairwise (· < ·) := by
  cases h with
  | add_step a r hadd =>
      rcases add_cases hadd with ⟨_, rfl⟩ | ⟨lastIt, it, hlast, hid, _, rfl⟩
      · exact hp
      · rw [List.map_append]
        rw [List.pairwise_append]
        refine ⟨hp, List.pairwise_singleton _ _, ?_⟩
        intro y hy b hb
        rcases List.mem_singleton.mp hb with rfl
        have hml : (s.map Item.id).getLast? = some lastIt.id := by
          rw [List.getLast?_map, hlast]
          rfl
        have hle : y ≤ lastIt.id := le_getLast_of_sorted hp hml y hy
        rw [hid]
        exact lt_of_le_of_lt hle (lt_add_one lastIt.id)
  | delete_step a r hdel =>
      exact hp.sublist ((delete_sublist hdel).map Item.id)

/-- Every reachable store has strictly increasing ids. -/
theorem reachable_pairwise {s : List Item} (h : ReachableStore s) :
    (s.map Item.id).Pairwise (· < ·) := by
  induction h with
  | refl => decide
  | tail _ hstep ih => exact storeStep_pairwise ih hstep

/-- A sequence of `/add` calls each of which succeeds, i.e. returns the
created item rather than the missing-field error payload (and does not
raise): relates the store before to the store after. -/
inductive AddsTo : List Item → List Args → List Item → Prop where
  | nil (s : List Item) : AddsTo s [] s
  | cons {s s' s'' : List Item} {a : Args} {rest : List Args} {r : Out} :
      add a s = Except.ok (r, s') →
      r ≠ .oobj [("error", .ostr "name and description are required")] →
      AddsTo s' rest s'' → AddsTo s (a :: rest) s''

/-- Each successful `/add` call appends exactly one item. -/
theorem addsTo_length {s s' : List Item} {l : List Args}
    (h : AddsTo s l s') : s'.length = s.length + l.length := by
  induction h with
  | nil s => rfl
  | cons hadd hne _ ih =>
      rcases add_cases hadd with ⟨hr, rfl⟩ | ⟨_, it, _, _, _, rfl⟩
      · exact absurd hr hne
      · simp only [ih, List.length_append, List.length_cons, List.length_nil]
        omega

/-! ## The claims -/

/-- C6 counterexample: `GET /health` and `GET /metrics` are answered
before `call_api`, so they do not increment the request counter — the
claim that the counter increases by one on every inbound request,
including these two routes, is false on the code. -/
theorem health_metrics_do_not_count :
    (do_GET "host" "/health" [] ⟨defaultItems, 5⟩).2.requestCount = 5 ∧
    (do_GET "host" "/metrics" [] ⟨defaultItems, 5⟩).2.requestCount = 5 :=
  ⟨rfl, rfl⟩

/-- C6 (amended): every dispatched request — any request that reaches
`call_api`, including those answered 404 or 500 — increments the
request counter by exactly one (the increment happens before route
lookup), while `GET /health` and `GET /metrics` bypass dispatch and
leave the counter unchanged. -/
theorem counter_increments_per_dispatch (hostname : String) (m : Method)
    (p : String) (args : Args) (q : List (String × List String))
    (st : ServerState) :
    (call_api hostname m p args st).2.requestCount = st.requestCount + 1 ∧
    (do_GET hostname "/health" q st).2.requestCount = st.requestCount ∧
    (do_GET hostname "/metrics" q st).2.requestCount = st.requestCount := by
  refine ⟨?_, rfl, rfl⟩
  rcases hl : routeLookup hostname m p with _ | hd
  · simp [call_api, hl]
  · rcases hr : hd args st.items with e | pr
    · simp [call_api, hl, hr]
    · rcases pr with ⟨r, items'⟩
      simp [call_api, hl, hr]

/-- C7: a POST whose declared content type is not exactly
`application/json` gets a 400 client-error JSON body with no handler
invoked and the state (store and counter) untouched, and the response
does not depend on the request body at all — the body is never read
or decoded. -/
theorem post_wrong_content_type_rejected (hostname p : String)
    (ct : Option String) (b b' : Except String Args) (st : ServerState)
    (h : ct ≠ some "application/json") :
    do_POST hostname p ct b st =
      .responded
        ⟨400, .json (.oobj [("error",
          .ostr "posted data must be in json format")])⟩ st ∧
    do_POST hostname p ct b st = do_POST hostname p ct b' st := by
  constructor <;> · unfold do_POST; simp only [if_pos h]

/-- C7 witness: `POST /add` with `Content-Type: text/plain` is rejected
with a 400 whatever the body holds. -/
theorem post_wrong_content_type_rejected_witness :
    do_POST "host" "/add" (some "text/plain")
        (.ok [("name", .str "fish"), ("description", .str "fish swims")])
        ⟨defaultItems, 0⟩ =
      .responded
        ⟨400, .json (.oobj [("error",
          .ostr "posted data must be in json format")])⟩
        ⟨defaultItems, 0⟩ :=
  (post_wrong_content_type_rejected "host" "/add" (some "text/plain")
    (.ok [("name", .str "fish"), ("description", .str "fish swims")])
    (.error "boom") ⟨defaultItems, 0⟩ (by simp)).1

/-- C8: any (method, path) pair with no registered handler is answered
404 with body `{"error": "not found"}`; no handler runs, the store is
unchanged (only the request counter moves). -/
theorem unrouted_pair_gets_404 (hostname : String) (m : Method)
    (p : String) (args : Args) (st : ServerState)
    (h : routeLookup hostname m p = none) :
    call_api hostname m p args st =
      (⟨404, .json (.oobj [("error", .ostr "not found")])⟩,
       ⟨st.items, st.requestCount + 1⟩) := by
  unfold call_api
  rw [h]

/-- C8 witness: `GET /nope` on the default store yields the 404 body
and leaves the items untouched. -/
theorem unrouted_pair_gets_404_witness :
    call_api "host" .GET "/nope" [] ⟨defaultItems, 0⟩ =
      (⟨404, .json (.oobj [("error", .ostr "not found")])⟩,
       ⟨defaultItems, 1⟩) :=
  unrouted_pair_gets_404 "host" .GET "/nope" [] ⟨defaultItems, 0⟩ rfl

/-- C9: on an empty store `add` reads `items[-1]["id"]` before any
presence check, so it raises `IndexError` for every args mapping —
the dispatcher then answers 500 (not the documented 200 error
payload) — while on any non-empty store `add` returns normally. -/
theorem add_raises_on_empty_store (hostname : String) (args : Args)
    (st : ServerState) (hst : st.items = []) :
    add args [] = Except.error "list index out of range" ∧
    call_api hostname .POST "/add" args st =
      (⟨500, .json (.oobj [("error", .ostr "list index out of range")])⟩,
       ⟨st.items, st.requestCount + 1⟩) ∧
    ∀ s : List Item, s ≠ [] → ∃ r s', add args s = Except.ok (r, s') := by
  refine ⟨add_nil args, ?_, ?_⟩
  · have hroute : routeLookup hostname .POST "/add" = some add := rfl
    simp only [call_api, hroute, hst, add_nil]
  · intro s hs
    rcases hn : getPy args "name" with _ | n
    · exact ⟨_, _, add_missing args s hs (Or.inl hn)⟩
    · rcases hd : getPy args "description" with _ | d
      · exact ⟨_, _, add_missing args s hs (Or.inr hd)⟩
      · exact ⟨_, _, add_created args s hs n d hn hd⟩

/-- C9 witness: the empty-store 500 at a concrete state, and normal
return on the concrete default store. -/
theorem add_raises_on_empty_store_witness :
    call_api "host" .POST "/add" [] ⟨[], 7⟩ =
      (⟨500, .json (.oobj [("error", .ostr "list index out of range")])⟩,
       ⟨[], 8⟩) ∧
    ∃ r s', add [] defaultItems = Except.ok (r, s') := by
  obtain ⟨_, hcall, htot⟩ :=
    add_raises_on_empty_store "host" [] (⟨[], 7⟩ : ServerState) rfl
  exact ⟨hcall, htot defaultItems (by simp [defaultItems])⟩

/-- C10: the GET handlers `index`, `list_items` and `search` never
mutate the store: `index` and `list_items` always return it unchanged,
and whenever `search` returns normally the store is unchanged too. -/
theorem get_handlers_preserve_store (hostname : String) (args : Args)
    (s : List Item) :
    (∃ r, index hostname args s = Except.ok (r, s)) ∧
    (∃ r, list_items args s = Except.ok (r, s)) ∧
    (∀ r s', search args s = Except.ok (r, s') → s' = s) := by
  refine ⟨⟨_, rfl⟩, ⟨_, rfl⟩, ?_⟩
  intro r s' h
  rcases hq : getPy args "q" with _ | q
  · have hse : search args s =
        .ok (.oobj [("error", .ostr "q parameter required")], s) := by
      unfold search
      simp only [hq]
    rw [hse] at h
    cases h
    rfl
  · rcases hf : searchFilter q s with e | results
    · have hse : search args s = .error e := by
        unfold search
        simp only [hq, hf]
      rw [hse] at h
      cases h
    · have hse : search args s =
          .ok (.oobj [("count", .onum results.length),
                      ("items", .olist (results.map itemToOut))], s) := by
        unfold search
        simp only [hq, hf]
      rw [hse] at h
      cases h
      rfl

/-- C10 witness: a concrete normal `search` return on the default
store, with the store equal before and after. -/
theorem get_handlers_preserve_store_witness :
    (∃ r, index "host" [] defaultItems = Except.ok (r, defaultItems)) ∧
    (∃ r, list_items [] defaultItems = Except.ok (r, defaultItems)) ∧
    defaultItems = defaultItems := by
  obtain ⟨h1, h2, h3⟩ := get_handlers_preserve_store "host"
    ([("q", ArgVal.str "ca")] : Args) defaultItems
  refine ⟨?_, h2, ?_⟩
  · exact ⟨_, rfl⟩
  · exact h3 (.oobj [("count", .onum 1),
      ("items", .olist [itemToOut ⟨1000, .str "cat", .str "cat is meowing"⟩])])
      defaultItems rfl

/-- C1 counterexample: on the empty store with args lacking `name`
(and `description`), `add` does not return the documented
`{"error": "name and description are required"}` payload — it raises
`IndexError` (`items[-1]` is evaluated before the presence check), so
the claim quantified over every store state is false. -/
theorem add_empty_store_counterexample :
    add [] ([] : List Item) = Except.error "list index out of range" ∧
    ∀ p : Out × List Item, add [] ([] : List Item) ≠ Except.ok p :=
  ⟨rfl, fun _ h => Except.noConfusion h⟩

/-- C1 (amended): on every NON-empty store state, `/add` behaves as
claimed: if the args mapping lacks `name` or `description` (Python
`args.get` returning `None`, i.e. key absent or bound to JSON null) it
returns the error payload with the store unchanged; otherwise it
appends a single new item whose id is the last item's id plus one and
returns that item. -/
theorem add_spec_nonempty (s : List Item) (args : Args) (hs : s ≠ []) :
    ((getPy args "name" = none ∨ getPy args "description" = none) →
      add args s =
        .ok (.oobj [("error", .ostr "name and description are required")],
             s)) ∧
    (∀ n d, getPy args "name" = some n → getPy args "description" = some d →
      add args s =
        .ok (itemToOut ⟨(s.getLast hs).id + 1, n, d⟩,
             s ++ [⟨(s.getLast hs).id + 1, n, d⟩])) :=
  ⟨add_missing args s hs, fun n d hn hd => add_created args s hs n d hn hd⟩

/-- C1 witness: `/add` with `{"name": "fish", "description": "fish
swims"}` on the default 3-item store (ids 1000, 1001, 1002) creates
and returns the item with id 1003, appended at the end. -/
theorem add_spec_nonempty_witness :
    add [("name", ArgVal.str "fish"), ("description", ArgVal.str "fish swims")]
        defaultItems =
      .ok (itemToOut ⟨1003, .str "fish", .str "fish swims"⟩,
           defaultItems ++ [⟨1003, .str "fish", .str "fish swims"⟩]) := by
  have h := (add_spec_nonempty defaultItems
    [("name", ArgVal.str "fish"), ("description", ArgVal.str "fish swims")]
    (by simp [defaultItems])).2 (.str "fish") (.str "fish swims") rfl rfl
  exact h

/-- C4: `/search` without `q` returns the required-parameter error; with
`q` present as a string it returns, in store order, exactly the items
whose name contains `q` as a case-sensitive substring, and the count
of those items — provided every stored name is a string, as in every
store the data model admits (a non-string name would make Python's
`q in item["name"]` raise instead). -/
theorem search_spec (s : List Item) (args : Args)
    (hnames : ∀ it ∈ s, ∃ nm : String, it.name = ArgVal.str nm) :
    (getPy args "q" = none →
      search args s =
        .ok (.oobj [("error", .ostr "q parameter required")], s)) ∧
    (∀ q : String, getPy args "q" = some (.str q) →
      search args s =
        .ok (.oobj
          [("count", .onum (s.filter (fun it =>
              match it.name with
              | .str nm => strContainsSub nm q
              | _ => false)).length),
           ("items", .olist ((s.filter (fun it =>
              match it.name with
              | .str nm => strContainsSub nm q
              | _ => false)).map itemToOut))], s)) := by
  constructor
  · intro hq
    unfold search
    simp only [hq]
  · intro q hq
    unfold search
    simp only [hq, searchFilter_str hnames]

/-- C4 witness: `q = "ca"` on the default data (`cat`, `dog`, `bird`)
returns exactly one item, named `cat`. -/
theorem search_spec_witness :
    search [("q", ArgVal.str "ca")] defaultItems =
      .ok (.oobj [("count", .onum 1),
                  ("items", .olist
                    [itemToOut ⟨1000, .str "cat", .str "cat is meowing"⟩])],
           defaultItems) := by
  have hnames : ∀ it ∈ defaultItems, ∃ nm : String, it.name = ArgVal.str nm := by
    intro it hit
    simp only [defaultItems, List.mem_cons, List.not_mem_nil, or_false] at hit
    rcases hit with rfl | rfl | rfl
    · exact ⟨"cat", rfl⟩
    · exact ⟨"dog", rfl⟩
    · exact ⟨"bird", rfl⟩
  have h := (search_spec defaultItems [("q", ArgVal.str "ca")] hnames).2 "ca" rfl
  exact h

/-- C3: `/delete` without `id` returns the required-parameter error
payload (store untouched); with `id` bound to JSON value `v` it scans
the store in order for the first item whose stored integer id is
Python-`==` to `v`, removes exactly that item (the store becomes
`eraseIdx` at that position) and returns `{"deleted": v}`; when no
item matches, it returns the not-found error with the store completely
unchanged. -/
theorem delete_spec (s : List Item) (args : Args) :
    (getPy args "id" = none →
      delete args s =
        .ok (.oobj [("error", .ostr "id parameter required")], s)) ∧
    (∀ v, getPy args "id" = some v →
      ((∀ it ∈ s, pyEqIdInt it.id v = false) →
        delete args s =
          .ok (.oobj [("error",
                 .ostr ("item not found with id " ++ pyStrV v))], s)) ∧
      (∀ i (hi : i < s.length),
        pyEqIdInt (s.get ⟨i, hi⟩).id v = true →
        (∀ j (hj : j < i),
          pyEqIdInt (s.get ⟨j, Nat.lt_trans hj hi⟩).id v = false) →
        delete args s =
          .ok (.oobj [("deleted", .oval v)], s.eraseIdx i))) := by
  constructor
  · intro hid
    unfold delete
    simp only [hid]
  · intro v hid
    constructor
    · intro hnone
      unfold delete
      simp only [hid, findFirstMatch_eq_none hnone]
    · intro i hi hm hb
      obtain ⟨hfind, hrem⟩ := findFirstMatch_removeFirstEq hi hm hb
      unfold delete
      simp only [hid, hfind, hrem]

/-- C3 witness: deleting id 1000 from the default store removes the
first item exactly, and deleting id 9999 changes nothing. -/
theorem delete_spec_witness :
    delete [("id", ArgVal.num 1000)] defaultItems =
      .ok (.oobj [("deleted", .oval (.num 1000))], defaultItems.eraseIdx 0) ∧
    delete [("id", ArgVal.num 9999)] defaultItems =
      .ok (.oobj [("error", .ostr "item not found with id 9999")],
           defaultItems) := by
  constructor
  · exact ((delete_spec defaultItems [("id", ArgVal.num 1000)]).2
      (.num 1000) rfl).2 0 (by simp [defaultItems]) (by decide)
      (fun j hj => absurd hj (Nat.not_lt_zero j))
  · exact ((delete_spec defaultItems [("id", ArgVal.num 9999)]).2
      (.num 9999) rfl).1 (by decide)

/-- C5: `/list` always returns `{count, items}` with `count` equal to
the store's length and `items` the full store in order; and after any
sequence of N successful `/add` calls the store — hence the `/list`
count — has grown by exactly N. -/
theorem list_count_roundtrip (s s' : List Item) (l : List Args)
    (h : AddsTo s l s') :
    (∀ (t : List Item) (args : Args),
      list_items args t =
        .ok (.oobj [("count", .onum t.length),
                    ("items", .olist (t.map itemToOut))], t)) ∧
    s'.length = s.length + l.length ∧
    list_items [] s' =
      .ok (.oobj [("count", .onum (s.length + l.length)),
                  ("items", .olist (s'.map itemToOut))], s') := by
  have hlen := addsTo_length h
  refine ⟨fun t args => rfl, hlen, ?_⟩
  unfold list_items
  rw [hlen]
  norm_cast

/-- C5 witness: one successful `/add` (the fish example) on the default
3-item store makes the `/list` count 4 = 3 + 1. -/
theorem list_count_roundtrip_witness :
    defaultItems.length + 1 = 4 ∧
    list_items []
        (defaultItems ++ [⟨1003, .str "fish", .str "fish swims"⟩]) =
      .ok (.oobj [("count", .onum (defaultItems.length + 1)),
                  ("items", .olist
                    ((defaultItems ++
                      ([⟨1003, .str "fish", .str "fish swims"⟩] :
                        List Item)).map itemToOut))],
           defaultItems ++ [⟨1003, .str "fish", .str "fish swims"⟩]) := by
  have hadds : AddsTo defaultItems
      [[("name", ArgVal.str "fish"), ("description", ArgVal.str "fish swims")]]
      (defaultItems ++ [⟨1003, .str "fish", .str "fish swims"⟩]) := by
    refine AddsTo.cons
      (r := itemToOut (⟨1003, .str "fish", .str "fish swims"⟩ : Item))
      rfl ?_ (AddsTo.nil _)
    simp [itemToOut]
  have h := list_count_roundtrip defaultItems
    (defaultItems ++ [⟨1003, .str "fish", .str "fish swims"⟩])
    [[("name", ArgVal.str "fish"), ("description", ArgVal.str "fish swims")]]
    hadds
  exact ⟨rfl, h.2.2⟩

/-- C2: in every store state reachable from the default data by `/add`
and `/delete` calls, item ids are unique; and every store step either
appends a single item at the end (`add`) or passes to a sublist
(`delete` removes one item, or an error path leaves the store equal),
so the relative order of surviving items is never changed. -/
theorem reachable_ids_unique_order_preserved (s : List Item)
    (h : ReachableStore s) :
    (s.map Item.id).Nodup ∧
    ∀ s', StoreStep s s' →
      (∃ it, s' = s ++ [it]) ∨ List.Sublist s' s := by
  constructor
  · exact (reachable_pairwise h).imp Int.ne_of_lt
  · intro s' hstep
    cases hstep with
    | add_step a r hadd =>
        rcases add_cases hadd with ⟨_, rfl⟩ | ⟨_, it, _, _, _, rfl⟩
        · exact Or.inr (List.Sublist.refl _)
        · exact Or.inl ⟨it, rfl⟩
    | delete_step a r hdel => exact Or.inr (delete_sublist hdel)

/-- C2 witness: the default store is reachable (empty sequence) and the
theorem instantiates on it. -/
theorem reachable_ids_unique_order_preserved_witness :
    (defaultItems.map Item.id).Nodup ∧
    ∀ s', StoreStep defaultItems s' →
      (∃ it, s' = defaultItems ++ [it]) ∨ List.Sublist s' defaultItems :=
  reachable_ids_unique_order_preserved defaultItems Relation.ReflTransGen.refl
